import Mathlib

/-!
Verification of the `deno-local-inkdrop` client library (`src/mod.ts`).

The development shallowly embeds the parts of the module the claims are
about: the runtime shape validators (built from `@core/unknownutil`
combinators), the Basic-Auth header builder (`@std/encoding/base64`),
the URL builder, the header-assembly and body-encoding logic of
`InkdropClient`, the response classification of `InkdropClient.request`,
and the resource facades that pipe payloads through the validators.

JavaScript runtime values that can appear in decoded JSON payloads are
modelled by `JsonValue`; `Headers` objects are modelled as association
lists with case-insensitive keys, mirroring the observable behaviour of
the WHATWG `Headers` class used by the code.
-/

namespace Inkdrop

/-- Decoded JSON payloads (the `unknown` values the validators inspect).
Numbers are modelled as integers: none of the verified behaviour depends
on non-integral numerics. -/
inductive JsonValue where
  | null
  | bool (b : Bool)
  | num (n : Int)
  | str (s : String)
  | arr (elems : List JsonValue)
  | obj (fields : List (String × JsonValue))
  deriving Repr

/-- First-match field lookup on a decoded JSON object (JS property access;
parsed JSON objects have unique keys). `none` models an absent property. -/
def lookupField (fields : List (String × JsonValue)) (key : String) : Option JsonValue :=
  match fields with
  | [] => none
  | (k, v) :: rest => if k = key then some v else lookupField rest key

/-- unknownutil `is.String`. -/
def isStringV : JsonValue → Bool
  | .str _ => true
  | _ => false

/-- unknownutil `is.Number`. -/
def isNumberV : JsonValue → Bool
  | .num _ => true
  | _ => false

/-- unknownutil `is.Boolean`. -/
def isBooleanV : JsonValue → Bool
  | .bool _ => true
  | _ => false

/-- unknownutil `is.Jsonable`: every decoded JSON value is jsonable. -/
def isJsonableV : JsonValue → Bool := fun _ => true

/-- A field requirement inside `is.ObjectOf`: either a plain predicate
(required field) or one wrapped in `as.Optional` (field may be absent). -/
inductive FieldSpec where
  | req (p : JsonValue → Bool)
  | opt (p : JsonValue → Bool)

/-- Check one field spec against an object's fields: a required field must
be present and satisfy the predicate; an `as.Optional` field may be absent. -/
def checkField (fields : List (String × JsonValue)) : String × FieldSpec → Bool
  | (key, .req p) =>
    match lookupField fields key with
    | some v => p v
    | none => false
  | (key, .opt p) =>
    match lookupField fields key with
    | some v => p v
    | none => true

/-- unknownutil `is.ObjectOf(specs)`: the value must be an object and every
listed field spec must hold. Extra fields are NOT rejected (non-strict). -/
def objectOf (specs : List (String × FieldSpec)) : JsonValue → Bool
  | .obj fields => specs.all (checkField fields)
  | _ => false

/-- unknownutil `is.ArrayOf(p)`. -/
def arrayOfV (p : JsonValue → Bool) : JsonValue → Bool
  | .arr elems => elems.all p
  | _ => false

/-- unknownutil `is.RecordOf(p, is.String)`: an object all of whose values
satisfy `p` (keys are strings by construction). -/
def recordOfV (p : JsonValue → Bool) : JsonValue → Bool
  | .obj fields => fields.all (fun kv => p kv.2)
  | _ => false

/-- `isInkdropDocBase` from mod.ts: `_id`/`_rev` strings, optional numeric
`createdAt`/`updatedAt`. -/
def isInkdropDocBase : JsonValue → Bool :=
  objectOf [("_id", .req isStringV), ("_rev", .req isStringV),
            ("createdAt", .opt isNumberV), ("updatedAt", .opt isNumberV)]

/-- `isNoteStatus` from mod.ts: `is.UnionOf` of the five status literals. -/
def isNoteStatus : JsonValue → Bool
  | .str s => s = "none" || s = "active" || s = "onHold" || s = "completed" || s = "dropped"
  | _ => false

/-- `isNoteShare` from mod.ts: `is.UnionOf` of the two share literals. -/
def isNoteShare : JsonValue → Bool
  | .str s => s = "private" || s = "public"
  | _ => false

/-- `is.LiteralOf("markdown")`. -/
def isMarkdownLiteral : JsonValue → Bool
  | .str s => s = "markdown"
  | _ => false

/-- `isNoteDoc` from mod.ts: `is.IntersectionOf` of the base predicate and
the note-specific object shape. -/
def isNoteDoc (v : JsonValue) : Bool :=
  isInkdropDocBase v &&
  objectOf [("doctype", .req isMarkdownLiteral),
            ("bookId", .req isStringV),
            ("status", .req isNoteStatus),
            ("share", .opt isNoteShare),
            ("migratedBy", .opt isStringV),
            ("numOfTasks", .opt isNumberV),
            ("numOfCheckedTasks", .opt isNumberV),
            ("pinned", .opt isBooleanV),
            ("title", .opt isStringV),
            ("body", .opt isStringV),
            ("tags", .opt (arrayOfV isStringV))] v

/-- `isBookDoc` from mod.ts. -/
def isBookDoc (v : JsonValue) : Bool :=
  isInkdropDocBase v &&
  objectOf [("name", .req isStringV), ("parentBookId", .opt isStringV)] v

/-- `isTagDoc` from mod.ts. -/
def isTagDoc (v : JsonValue) : Bool :=
  isInkdropDocBase v &&
  objectOf [("name", .req isStringV), ("color", .opt isStringV),
            ("count", .opt isNumberV)] v

/-- `isAttachmentData` from mod.ts. -/
def isAttachmentData : JsonValue → Bool :=
  objectOf [("digest", .req isStringV), ("content_type", .req isStringV),
            ("revpos", .req isNumberV), ("data", .opt isJsonableV)]

/-- `isFileDoc` from mod.ts. -/
def isFileDoc (v : JsonValue) : Bool :=
  isInkdropDocBase v &&
  objectOf [("name", .req isStringV),
            ("contentType", .opt isStringV),
            ("contentLength", .opt isNumberV),
            ("md5digest", .opt isStringV),
            ("revpos", .opt isNumberV),
            ("publicIn", .opt (arrayOfV isStringV)),
            ("_attachments", .opt (recordOfV isAttachmentData))] v

/-- `isAnyDoc` from mod.ts: `is.UnionOf([isNoteDoc, isBookDoc, isTagDoc,
isFileDoc])`, tried in that order. -/
def isAnyDoc (v : JsonValue) : Bool :=
  isNoteDoc v || isBookDoc v || isTagDoc v || isFileDoc v

/-- `isMutationResponse` from mod.ts: `ok` boolean, `id`/`rev` strings. -/
def isMutationResponse : JsonValue → Bool :=
  objectOf [("ok", .req isBooleanV), ("id", .req isStringV),
            ("rev", .req isStringV)]

/-- `isInkdropServerInfo` from mod.ts. -/
def isInkdropServerInfo : JsonValue → Bool :=
  objectOf [("app", .req isStringV), ("version", .req isStringV),
            ("apiVersion", .req isStringV)]

/-- A well-formed Book payload in the sense of claim C1: an object with
string `_id`, `_rev`, `name`, optionally a string `parentBookId` and numeric
`createdAt`/`updatedAt`, and no other fields. -/
def mkBookPayload (id rev name : String) (parent : Option String)
    (created updated : Option Int) : JsonValue :=
  .obj ([("_id", .str id), ("_rev", .str rev), ("name", .str name)]
    ++ (match parent with | some p => [("parentBookId", .str p)] | none => [])
    ++ (match created with | some c => [("createdAt", .num c)] | none => [])
    ++ (match updated with | some u => [("updatedAt", .num u)] | none => []))

/-- The standard base64 alphabet used by `encodeBase64` of
`@std/encoding/base64`. -/
def b64Alphabet : List Char :=
  "ABCDEFGHIJKLMNOPQRSTUVWXYZabcdefghijklmnopqrstuvwxyz0123456789+/".data

/-- Alphabet character for a 6-bit group. -/
def b64Char (n : Nat) : Char := b64Alphabet.getD n 'A'

/-- Standard base64 encoding of a byte list (bytes are `Nat < 256`):
each 3-byte group becomes 4 alphabet characters; a trailing 1- or 2-byte
group is padded with `=`, as in `encodeBase64` of `@std/encoding/base64`. -/
def encodeBase64 : List Nat → List Char
  | [] => []
  | [a] => [b64Char (a / 4), b64Char (a % 4 * 16), '=', '=']
  | [a, b] => [b64Char (a / 4), b64Char (a % 4 * 16 + b / 16), b64Char (b % 16 * 4), '=']
  | a :: b :: c :: rest =>
    b64Char (a / 4) :: b64Char (a % 4 * 16 + b / 16) ::
      b64Char (b % 16 * 4 + c / 64) :: b64Char (c % 64) :: encodeBase64 rest

/-- Position of a character in the base64 alphabet. -/
def b64Index (c : Char) : Nat := b64Alphabet.indexOf c

/-- Standard base64 decoding (inverse of `encodeBase64` on its image):
each 4-character group yields 3 bytes, or fewer on a `=`-padded tail. -/
def decodeBase64 : List Char → List Nat
  | c0 :: c1 :: c2 :: c3 :: rest =>
    if c2 = '=' then
      [b64Index c0 * 4 + b64Index c1 / 16]
    else if c3 = '=' then
      let w := b64Index c0 * 1024 + b64Index c1 * 16 + b64Index c2 / 4
      [w / 256, w % 256]
    else
      let w := b64Index c0 * 262144 + b64Index c1 * 4096 + b64Index c2 * 64 + b64Index c3
      w / 65536 :: w / 256 % 256 :: w % 256 :: decodeBase64 rest
  | _ => []

/-- UTF-8 encoding of one Unicode code point, as `TextEncoder` does. -/
def utf8EncodeChar (c : Char) : List Nat :=
  let n := c.toNat
  if n < 0x80 then [n]
  else if n < 0x800 then [0xC0 + n / 64, 0x80 + n % 64]
  else if n < 0x10000 then [0xE0 + n / 4096, 0x80 + n / 64 % 64, 0x80 + n % 64]
  else [0xF0 + n / 262144, 0x80 + n / 4096 % 64, 0x80 + n / 64 % 64, 0x80 + n % 64]

/-- UTF-8 bytes of a string (`new TextEncoder().encode(s)`). -/
def utf8Encode (s : String) : List Nat := s.data.flatMap utf8EncodeChar

/-- `basicAuthHeader` from mod.ts: `"Basic "` followed by the standard
base64 encoding of the UTF-8 bytes of `"<username>:<password>"`. -/
def basicAuthHeader (username password : String) : String :=
  "Basic " ++ String.mk (encodeBase64 (utf8Encode (username ++ ":" ++ password)))

/-- Scalar query-parameter values (string, number or boolean). -/
inductive Scalar where
  | s (v : String)
  | n (v : Int)
  | b (v : Bool)

/-- `ParamValue` from mod.ts: string | number | boolean | null | undefined
| an array of scalars. -/
inductive ParamValue where
  | null
  | undef
  | scalar (v : Scalar)
  | arr (elems : List Scalar)

/-- Whether a param value is `null` or `undefined` (skipped by `buildUrl`). -/
def isNullish : ParamValue → Bool
  | .null => true
  | .undef => true
  | _ => false

/-- JS `String(v)` applied to a scalar param value. -/
def strOfScalar : Scalar → String
  | .s v => v
  | .n v => toString v
  | .b true => "true"
  | .b false => "false"

/-- `URLSearchParams.append`: adds an entry at the end of the list. -/
def searchAppend (ps : List (String × String)) (k v : String) : List (String × String) :=
  ps ++ [(k, v)]

/-- `URLSearchParams.set`: replaces the first entry carrying the key and
removes any later ones; appends at the end when the key is absent. -/
def searchSet : List (String × String) → String → String → List (String × String)
  | [], k, v => [(k, v)]
  | (k', v') :: rest, k, v =>
    if k' = k then (k, v) :: rest.filter (fun e => e.1 != k)
    else (k', v') :: searchSet rest k v

/-- One iteration of `buildUrl`'s loop over `Object.entries(params)`:
null/undefined values are skipped, array values are appended element-wise,
scalar values are set. -/
def buildUrlStep (acc : List (String × String)) (entry : String × ParamValue) :
    List (String × String) :=
  match entry with
  | (_, .null) => acc
  | (_, .undef) => acc
  | (k, .arr elems) => elems.foldl (fun a item => searchAppend a k (strOfScalar item)) acc
  | (k, .scalar v) => searchSet acc k (strOfScalar v)

/-- `buildUrl` from mod.ts, observed through the search-parameter list of
the URL it returns. `init` is the search-parameter list of
`new URL(path, baseUrl)` — the query carried by the path itself, usually
empty; the second argument is `Object.entries(params)` in entry order,
`none` when no params object was given. -/
def buildUrl (init : List (String × String)) :
    Option (List (String × ParamValue)) → List (String × String)
  | none => init
  | some entries => entries.foldl buildUrlStep init

/-- A `Headers` object observed as its entry list; header names compare
case-insensitively, as in the WHATWG `Headers` class. -/
abbrev HeadersMap : Type := List (String × String)

/-- Case-insensitive equality of header names (ASCII lowercasing, the
normalization the `Headers` class applies to header names). -/
def keyEqCI (a b : String) : Bool :=
  a.data.map Char.toLower == b.data.map Char.toLower

/-- `Headers.get`. -/
def hGet (hs : HeadersMap) (k : String) : Option String :=
  match hs with
  | [] => none
  | (k', v) :: rest => if keyEqCI k' k then some v else hGet rest k

/-- `Headers.has`. -/
def hHas (hs : HeadersMap) (k : String) : Bool :=
  hs.any (fun e => keyEqCI e.1 k)

/-- `Headers.set`: replaces the value of an existing entry with that name
(removing any later duplicates), or appends a new entry at the end. -/
def hSet : HeadersMap → String → String → HeadersMap
  | [], k, v => [(k, v)]
  | (k', v') :: rest, k, v =>
    if keyEqCI k' k then (k, v) :: rest.filter (fun e => !(keyEqCI e.1 k))
    else (k', v') :: hSet rest k v

/-- `Headers.append`, used by the `Headers` constructor: combines with an
existing entry's value using `", "`, otherwise appends a new entry. -/
def hAppend : HeadersMap → String → String → HeadersMap
  | [], k, v => [(k, v)]
  | (k', v') :: rest, k, v =>
    if keyEqCI k' k then (k', v' ++ ", " ++ v) :: rest
    else (k', v') :: hAppend rest k v

/-- `new Headers(init)`: appends each entry of the init list in order. -/
def headersOfInit (init : List (String × String)) : HeadersMap :=
  init.foldl (fun acc e => hAppend acc e.1 e.2) []

/-- Pairwise-distinct header names, an invariant of every real `Headers`
object (its entries are merged by name on construction). -/
def HKeysDistinct (hs : HeadersMap) : Prop :=
  hs.Pairwise (fun a b => keyEqCI a.1 b.1 = false)

instance (hs : HeadersMap) : Decidable (HKeysDistinct hs) :=
  inferInstanceAs
    (Decidable (List.Pairwise (fun a b : String × String => keyEqCI a.1 b.1 = false) hs))

/-- Left-biased choice on options (`caller wins, else default`). -/
def optOr (a b : Option String) : Option String :=
  match a with
  | some v => some v
  | none => b

/-- The `InkdropClient` constructor's default-header assembly (mod.ts lines
109–118): start from `new Headers(options.headers ?? {})`, inject the
Basic-Auth `Authorization` header when none was supplied, then inject
`Accept: application/json` when none was supplied. -/
def assembleDefaultHeaders (username password : String) (caller : HeadersMap) :
    HeadersMap :=
  let h1 := if hHas caller "Authorization" then caller
            else hSet caller "Authorization" (basicAuthHeader username password)
  if hHas h1 "Accept" then h1 else hSet h1 "Accept" "application/json"

/-- The header merge of `InkdropClient.request` (lines 133–138): copy the
client's default headers, then `set` each caller-supplied header over the
copy. -/
def mergeHeaders (defaults caller : HeadersMap) : HeadersMap :=
  caller.foldl (fun acc e => hSet acc e.1 e.2) defaults

/-- JS values supplied as a request body. The non-string `BodyInit` kinds
are modelled opaquely: the client never looks inside them. -/
inductive BodyValue where
  | undef
  | str (s : String)
  | blob
  | arrayBuffer
  | uint8Array
  | readableStream
  | formData
  | urlSearchParams
  | other (v : JsonValue)

/-- `isBodyInitLike` from mod.ts: string or one of the native `BodyInit`
classes. -/
def isBodyInitLike : BodyValue → Bool
  | .str _ => true
  | .blob => true
  | .arrayBuffer => true
  | .uint8Array => true
  | .readableStream => true
  | .formData => true
  | .urlSearchParams => true
  | _ => false

/-- One escaped character of a JSON string literal. -/
def escapeJsonChar (c : Char) : String :=
  if c = '"' then "\\\""
  else if c = '\\' then "\\\\"
  else if c = '\n' then "\\n"
  else if c = '\t' then "\\t"
  else if c = '\r' then "\\r"
  else String.singleton c

/-- A JSON string literal. -/
def jsonStringLit (s : String) : String :=
  "\"" ++ String.join (s.data.map escapeJsonChar) ++ "\""

mutual

/-- `JSON.stringify` on decoded JSON values. -/
def jsonStringify : JsonValue → String
  | .null => "null"
  | .bool true => "true"
  | .bool false => "false"
  | .num n => toString n
  | .str s => jsonStringLit s
  | .arr elems => "[" ++ jsonStringifyList elems ++ "]"
  | .obj fields => "\x7b" ++ jsonStringifyFields fields ++ "\x7d"

/-- Comma-separated serialization of an array's elements. -/
def jsonStringifyList : List JsonValue → String
  | [] => ""
  | [v] => jsonStringify v
  | v :: rest => jsonStringify v ++ "," ++ jsonStringifyList rest

/-- Comma-separated serialization of an object's fields. -/
def jsonStringifyFields : List (String × JsonValue) → String
  | [] => ""
  | [(k, v)] => jsonStringLit k ++ ":" ++ jsonStringify v
  | (k, v) :: rest => jsonStringLit k ++ ":" ++ jsonStringify v ++ "," ++ jsonStringifyFields rest

end

/-- `JSON.stringify` on a non-`BodyInit` body value (only the `other` case
can reach the serialization branch of `request`). -/
def jsonStringifyBody : BodyValue → String
  | .other v => jsonStringify v
  | _ => ""

/-- The body handed to the transport: a `BodyInit` passed through, or the
JSON text produced by serialization. -/
inductive SentBody where
  | raw (b : BodyValue)
  | text (s : String)

/-- Body encoding of `InkdropClient.request` (lines 140–150): an undefined
body sends nothing; a `BodyInit`-like body is passed through with the
headers untouched; anything else is JSON-serialized and `Content-Type`
defaults to `application/json` when not already set. Returns the body
handed to the transport and the final headers. -/
def prepareBody (headers : HeadersMap) (body : BodyValue) :
    Option SentBody × HeadersMap :=
  match body with
  | .undef => (none, headers)
  | b =>
    if isBodyInitLike b then (some (.raw b), headers)
    else
      (some (.text (jsonStringifyBody b)),
       if hHas headers "Content-Type" then headers
       else hSet headers "Content-Type" "application/json")

/-- The transport seam: the fields of the `Response` object that `request`
reads. `jsonBody` and `textBody` are what `response.json()` and
`response.text()` would produce. -/
structure TransportResponse where
  status : Nat
  statusText : String
  contentType : Option String
  jsonBody : JsonValue
  textBody : String

/-- JS `String.prototype.includes`. -/
def strContainsSub (hay needle : String) : Bool :=
  (List.range (hay.data.length + 1)).any
    (fun i => needle.data.isPrefixOf (hay.data.drop i))

/-- `Response.ok`: status in [200, 300). -/
def responseOk (r : TransportResponse) : Bool :=
  decide (200 ≤ r.status) && decide (r.status < 300)

/-- The payload decode of `request` (lines 159–163): a 204 status decodes
to null; otherwise a content type containing `application/json` selects
the JSON decode, and anything else the text decode. -/
def decodePayload (r : TransportResponse) : JsonValue :=
  if r.status = 204 then .null
  else if strContainsSub (r.contentType.getD "") "application/json" then r.jsonBody
  else .str r.textBody

/-- The data carried by an `InkdropError`. -/
structure ErrorData where
  message : String
  status : Nat
  statusText : String
  body : JsonValue

/-- Outcome of `request`: the decoded payload on success, a thrown
`InkdropError` otherwise. -/
inductive RequestOutcome where
  | success (payload : JsonValue)
  | apiError (e : ErrorData)

/-- Outcome classification of `request` (lines 159–177): `response.ok`
selects success; otherwise an `InkdropError` is thrown whose message embeds
the numeric status and status text and whose fields carry the status,
status text and decoded body. -/
def classifyResponse (r : TransportResponse) : RequestOutcome :=
  let payload := decodePayload r
  if responseOk r then .success payload
  else
    .apiError ⟨"Inkdrop API error: " ++ toString r.status ++ " " ++ r.statusText,
               r.status, r.statusText, payload⟩

/-- Outcome of a facade operation: the transport error propagates; a 2xx
payload failing the expected predicate raises unknownutil's `AssertError`
(`validationError` here), a distinct kind from `InkdropError`. -/
inductive FacadeOutcome where
  | ok (payload : JsonValue)
  | apiError (e : ErrorData)
  | validationError

/-- unknownutil `ensure(value, pred)` applied to the outcome of `request`:
`ensure` returns the value unchanged when the predicate holds of it and
throws an `AssertError` otherwise. -/
def ensureOutcome (pred : JsonValue → Bool) : RequestOutcome → FacadeOutcome
  | .apiError e => .apiError e
  | .success payload => if pred payload then .ok payload else .validationError

/-- `NotesAPI.list`: GET /notes piped through
`ensure(value, is.ArrayOf(isNoteDoc))`. -/
def notesList (r : TransportResponse) : FacadeOutcome :=
  ensureOutcome (arrayOfV isNoteDoc) (classifyResponse r)

/-- `DocsAPI.get`: GET /{docId} piped through `ensure(value, isAnyDoc)`. -/
def docsGet (r : TransportResponse) : FacadeOutcome :=
  ensureOutcome isAnyDoc (classifyResponse r)

/-- `NotesAPI.upsert`: POST /notes piped through
`ensure(value, isMutationResponse)`. -/
def notesUpsert (r : TransportResponse) : FacadeOutcome :=
  ensureOutcome isMutationResponse (classifyResponse r)

/-- `DocsAPI.delete`: DELETE /{docId} piped through
`ensure(value, isMutationResponse)`. -/
def docsDelete (r : TransportResponse) : FacadeOutcome :=
  ensureOutcome isMutationResponse (classifyResponse r)

/-- A heap of `Headers` objects; a reference is an index into it. Models
JS object identity for the mutable `Headers` values `request` touches. -/
structure HeadersHeap where
  objs : List HeadersMap

/-- Allocate a fresh `Headers` object (`new Headers(...)`), returning the
new heap and the reference. -/
def hAlloc (h : HeadersHeap) (v : HeadersMap) : HeadersHeap × Nat :=
  (⟨h.objs ++ [v]⟩, h.objs.length)

/-- Read a `Headers` object through its reference. -/
def hRead (h : HeadersHeap) (r : Nat) : HeadersMap :=
  h.objs.getD r []

/-- Overwrite the `Headers` object behind a reference (in-place
`Headers.set` mutations, batched as one write of the resulting value). -/
def hWrite (h : HeadersHeap) (r : Nat) (v : HeadersMap) : HeadersHeap :=
  ⟨h.objs.set r v⟩

/-- The client configuration captured at construction: the `readonly`
fields of `InkdropClient` plus a reference to the `defaultHeaders`
`Headers` object (the only mutable value the client holds). -/
structure ClientState where
  baseUrl : String
  username : String
  password : String
  defaultHeadersRef : Nat

/-- The caller headers overlaid on a copy of the defaults (lines 133–138):
no caller headers leave the copy as is; otherwise each entry of
`new Headers(options.headers)` is `set` over it. -/
def overlayHeaders (dflt : HeadersMap) :
    Option (List (String × String)) → HeadersMap
  | none => dflt
  | some init => mergeHeaders dflt (headersOfInit init)

/-- The header/body preparation of one `request` call with the `Headers`
mutations made explicit on the heap: `new Headers(this.defaultHeaders)`
allocates a fresh copy; the caller-header overlay and the JSON
`Content-Type` injection write only to that copy. Returns the final heap,
the headers sent to the transport, and the body sent. -/
def requestPrepare (h : HeadersHeap) (c : ClientState)
    (callerHeaders : Option (List (String × String))) (body : BodyValue) :
    HeadersHeap × HeadersMap × Option SentBody :=
  let alloc := hAlloc h (hRead h c.defaultHeadersRef)
  let h1 := alloc.1
  let r := alloc.2
  let h2 := match callerHeaders with
    | none => h1
    | some init => hWrite h1 r (mergeHeaders (hRead h1 r) (headersOfInit init))
  let prepared := prepareBody (hRead h2 r) body
  let h3 := hWrite h2 r prepared.2
  (h3, hRead h3 r, prepared.1)

end Inkdrop

namespace Inkdrop

/-- C1 (counterexample): the document predicates are NOT mutually exclusive.
The well-formed Book payload `{_id: "book:a", _rev: "1-x", name: "n"}` is
accepted by `isBookDoc`, `isTagDoc` and `isFileDoc` simultaneously, so more
than one predicate holds of it and `isTagDoc`/`isFileDoc` do not reject it. -/
theorem C1_counterexample :
    isBookDoc (mkBookPayload "book:a" "1-x" "n" none none none) = true ∧
    isTagDoc (mkBookPayload "book:a" "1-x" "n" none none none) = true ∧
    isFileDoc (mkBookPayload "book:a" "1-x" "n" none none none) = true := by
  decide

/-- C1 (amended): for every well-formed Book payload (string `_id`, `_rev`,
`name`, optional string `parentBookId`, optional numeric `createdAt` and
`updatedAt`), `isAnyDoc` accepts it and `isNoteDoc` rejects it — so the first
matching predicate in `isAnyDoc`'s order is the Book predicate — but
`isTagDoc` and `isFileDoc` also accept it: the predicates are not mutually
exclusive. Only the boolean acceptance of `isAnyDoc` is order-independent
(reversing the union's order yields the same boolean on every payload). -/
theorem C1_amended (id rev name : String) (parent : Option String)
    (created updated : Option Int) :
    isAnyDoc (mkBookPayload id rev name parent created updated) = true ∧
    isBookDoc (mkBookPayload id rev name parent created updated) = true ∧
    isNoteDoc (mkBookPayload id rev name parent created updated) = false ∧
    isTagDoc (mkBookPayload id rev name parent created updated) = true ∧
    isFileDoc (mkBookPayload id rev name parent created updated) = true ∧
    (∀ v : JsonValue,
      isAnyDoc v = (isFileDoc v || isTagDoc v || isBookDoc v || isNoteDoc v)) := by
  refine ⟨?_, ?_, ?_, ?_, ?_, ?_⟩
  · rcases parent with _ | p <;> rcases created with _ | c <;>
      rcases updated with _ | u <;> rfl
  · rcases parent with _ | p <;> rcases created with _ | c <;>
      rcases updated with _ | u <;> rfl
  · rcases parent with _ | p <;> rcases created with _ | c <;>
      rcases updated with _ | u <;> rfl
  · rcases parent with _ | p <;> rcases created with _ | c <;>
      rcases updated with _ | u <;> rfl
  · rcases parent with _ | p <;> rcases created with _ | c <;>
      rcases updated with _ | u <;> rfl
  · intro v
    simp [isAnyDoc, Bool.or_comm, Bool.or_assoc, Bool.or_left_comm]

theorem b64Index_b64Char : ∀ n < 64, b64Index (b64Char n) = n := by decide

theorem b64Char_ne_pad : ∀ n < 64, b64Char n ≠ '=' := by decide

theorem decodeBase64_encodeBase64 : ∀ bs : List Nat, (∀ b ∈ bs, b < 256) →
    decodeBase64 (encodeBase64 bs) = bs
  | [], _ => rfl
  | [a], h => by
    have ha : a < 256 := h a (by simp)
    have h1 : a / 4 < 64 := by omega
    have h2 : a % 4 * 16 < 64 := by omega
    simp [encodeBase64, decodeBase64, b64Index_b64Char _ h1, b64Index_b64Char _ h2]
    omega
  | [a, b], h => by
    have ha : a < 256 := h a (by simp)
    have hb : b < 256 := h b (by simp)
    have h1 : a / 4 < 64 := by omega
    have h2 : a % 4 * 16 + b / 16 < 64 := by omega
    have h3 : b % 16 * 4 < 64 := by omega
    simp [encodeBase64, decodeBase64, b64Char_ne_pad _ h3,
      b64Index_b64Char _ h1, b64Index_b64Char _ h2, b64Index_b64Char _ h3]
    omega
  | a :: b :: c :: rest, h => by
    have ha : a < 256 := h a (by simp)
    have hb : b < 256 := h b (by simp)
    have hc : c < 256 := h c (by simp)
    have h1 : a / 4 < 64 := by omega
    have h2 : a % 4 * 16 + b / 16 < 64 := by omega
    have h3 : b % 16 * 4 + c / 64 < 64 := by omega
    have h4 : c % 64 < 64 := by omega
    have ih := decodeBase64_encodeBase64 rest (fun x hx => h x (by simp [hx]))
    simp [encodeBase64, decodeBase64, b64Char_ne_pad _ h3, b64Char_ne_pad _ h4,
      b64Index_b64Char _ h1, b64Index_b64Char _ h2, b64Index_b64Char _ h3,
      b64Index_b64Char _ h4, ih]
    omega

theorem char_toNat_lt (c : Char) : c.toNat < 1114112 := by
  rcases c.valid with h | h
  · exact Nat.lt_trans h (by norm_num)
  · exact h.2

theorem utf8EncodeChar_lt (c : Char) : ∀ b ∈ utf8EncodeChar c, b < 256 := by
  intro b hb
  have hv : c.toNat < 1114112 := char_toNat_lt c
  unfold utf8EncodeChar at hb
  dsimp only at hb
  split_ifs at hb with h1 h2 h3
  · simp at hb; omega
  · simp at hb; rcases hb with hb | hb <;> omega
  · simp at hb; rcases hb with hb | hb | hb <;> omega
  · simp at hb; rcases hb with hb | hb | hb | hb <;> omega

theorem utf8Encode_lt (s : String) : ∀ b ∈ utf8Encode s, b < 256 := by
  intro b hb
  unfold utf8Encode at hb
  simp only [List.mem_flatMap] at hb
  obtain ⟨c, _, hc⟩ := hb
  exact utf8EncodeChar_lt c b hc

/-- C3: `basicAuthHeader` is a pure function of its two arguments: it
returns `"Basic "` followed by the standard base64 encoding (standard
alphabet and padding) of the UTF-8 bytes of `"u:p"`; decoding that base64
suffix recovers exactly the UTF-8 bytes of `"u:p"`; and
`basicAuthHeader "user" "pass"` equals `"Basic dXNlcjpwYXNz"`. -/
theorem C3_basicAuthHeader_roundtrip (u p : String) :
    basicAuthHeader u p
      = "Basic " ++ String.mk (encodeBase64 (utf8Encode (u ++ ":" ++ p))) ∧
    decodeBase64 (encodeBase64 (utf8Encode (u ++ ":" ++ p)))
      = utf8Encode (u ++ ":" ++ p) ∧
    basicAuthHeader "user" "pass" = "Basic dXNlcjpwYXNz" :=
  ⟨rfl, decodeBase64_encodeBase64 _ (utf8Encode_lt _), by decide⟩

theorem foldl_searchAppend (k : String) (f : Scalar → String) :
    ∀ (xs : List Scalar) (acc : List (String × String)),
    xs.foldl (fun a item => searchAppend a k (f item)) acc
      = acc ++ xs.map (fun x => (k, f x))
  | [], acc => by simp
  | x :: xs, acc => by
    rw [List.foldl_cons, foldl_searchAppend k f xs]
    simp [searchAppend]

theorem searchSet_filter_self : ∀ (acc : List (String × String)) (k v : String),
    (searchSet acc k v).filter (fun e => e.1 == k) = [(k, v)]
  | [], k, v => by simp [searchSet]
  | (k', v') :: rest, k, v => by
    by_cases h : k' = k
    · simp [searchSet, h, List.filter_filter]
    · simp [searchSet, h, searchSet_filter_self rest k v]

/-- C4: in `buildUrl`'s parameter loop, an array value of length `n`
appends `n` repeated query entries under its key — one per element, in
element order, each element stringified, never comma-joined — leaving
entries for the key already present intact in front of them; a scalar
value leaves the key associated to exactly its stringified value,
overwriting any prior value for that key. Concretely,
`buildUrl base "/notes" {tags: ["a","b"]}` yields the two repeated
entries `tags=a&tags=b`. -/
theorem C4_buildUrl_array_scalar (acc : List (String × String)) (k : String)
    (xs : List Scalar) (v : Scalar) :
    buildUrlStep acc (k, .arr xs) = acc ++ xs.map (fun x => (k, strOfScalar x)) ∧
    (buildUrlStep acc (k, .arr xs)).filter (fun e => e.1 == k)
      = acc.filter (fun e => e.1 == k) ++ xs.map (fun x => (k, strOfScalar x)) ∧
    (buildUrlStep acc (k, .scalar v)).filter (fun e => e.1 == k)
      = [(k, strOfScalar v)] ∧
    buildUrl [] (some [("tags", .arr [.s "a", .s "b"])])
      = [("tags", "a"), ("tags", "b")] := by
  refine ⟨?_, ?_, ?_, by decide⟩
  · rw [buildUrlStep, foldl_searchAppend]
  · rw [buildUrlStep, foldl_searchAppend]
    simp [List.filter_append, List.filter_map, Function.comp_def]
  · rw [buildUrlStep, searchSet_filter_self]

theorem buildUrl_foldl_filter_nullish :
    ∀ (entries : List (String × ParamValue)) (init : List (String × String)),
    entries.foldl buildUrlStep init
      = (entries.filter (fun e => !(isNullish e.2))).foldl buildUrlStep init
  | [], _ => rfl
  | (k, pv) :: rest, init => by
    cases pv <;>
      simp [List.foldl_cons, isNullish, buildUrlStep,
        buildUrl_foldl_filter_nullish rest]

/-- C5: `buildUrl` omits every key whose value is null or undefined: the
query it builds is the one built from the entry list with all nullish
entries removed (so keys with other values are kept and contribute as
usual). Concretely, `buildUrl base "/x" {a: undefined, b: "v"}` yields a
query containing only `b=v`. -/
theorem C5_buildUrl_drops_nullish (init : List (String × String))
    (entries : List (String × ParamValue)) :
    buildUrl init (some entries)
      = buildUrl init (some (entries.filter (fun e => !(isNullish e.2)))) ∧
    buildUrl [] (some [("a", .undef), ("b", .scalar (.s "v"))]) = [("b", "v")] :=
  ⟨buildUrl_foldl_filter_nullish entries init, by decide⟩

theorem keyEqCI_true_iff (a b : String) :
    keyEqCI a b = true ↔ a.data.map Char.toLower = b.data.map Char.toLower := by
  simp [keyEqCI]

theorem keyEqCI_false_iff (a b : String) :
    keyEqCI a b = false ↔ a.data.map Char.toLower ≠ b.data.map Char.toLower := by
  simp [keyEqCI]

theorem hGet_filter_keyNe (k' k : String) (h : keyEqCI k' k = false) :
    ∀ hs : HeadersMap, hGet (hs.filter (fun e => !(keyEqCI e.1 k'))) k = hGet hs k
  | [] => rfl
  | (a, w) :: rest => by
    by_cases ha : keyEqCI a k' = true
    · have hak : keyEqCI a k = false := by
        rw [keyEqCI_true_iff] at ha
        rw [keyEqCI_false_iff] at h ⊢
        rw [ha]; exact h
      simp [ha, hGet, hak, hGet_filter_keyNe k' k h rest]
    · rw [Bool.not_eq_true] at ha
      simp [ha, hGet, hGet_filter_keyNe k' k h rest]

theorem hGet_hSet (k' v k : String) :
    ∀ hs : HeadersMap,
    hGet (hSet hs k' v) k = if keyEqCI k' k then some v else hGet hs k
  | [] => by simp [hSet, hGet]
  | (a, w) :: rest => by
    by_cases ha : keyEqCI a k' = true
    · rw [hSet, if_pos ha]
      by_cases hk : keyEqCI k' k = true
      · simp [hGet, hk]
      · rw [Bool.not_eq_true] at hk
        have hak : keyEqCI a k = false := by
          rw [keyEqCI_true_iff] at ha
          rw [keyEqCI_false_iff] at hk ⊢
          rw [ha]; exact hk
        simp [hGet, hk, hak, hGet_filter_keyNe k' k hk rest]
    · rw [Bool.not_eq_true] at ha
      rw [hSet, if_neg (by simp [ha])]
      by_cases hak : keyEqCI a k = true
      · have hk : keyEqCI k' k = false := by
          rw [keyEqCI_true_iff] at hak
          rw [keyEqCI_false_iff] at ha ⊢
          intro hcon; exact ha (by rw [hcon, hak])
        simp [hGet, hak, hk]
      · rw [Bool.not_eq_true] at hak
        simp [hGet, hak, hGet_hSet k' v k rest]

theorem hHas_eq_isSome (k : String) :
    ∀ hs : HeadersMap, hHas hs k = (hGet hs k).isSome
  | [] => rfl
  | (a, w) :: rest => by
    have ih := hHas_eq_isSome k rest
    simp only [hHas, List.any_cons] at ih ⊢
    by_cases h : keyEqCI a k = true
    · simp [hGet, h]
    · rw [Bool.not_eq_true] at h
      simp [hGet, h, ih]

theorem hHas_hSet (k' v k : String) (hs : HeadersMap) :
    hHas (hSet hs k' v) k = (keyEqCI k' k || hHas hs k) := by
  rw [hHas_eq_isSome, hHas_eq_isSome, hGet_hSet]
  by_cases h : keyEqCI k' k = true
  · simp [h]
  · rw [Bool.not_eq_true] at h
    simp [h]

theorem hGet_none_of_all (k : String) :
    ∀ hs : HeadersMap, (∀ e ∈ hs, keyEqCI e.1 k = false) → hGet hs k = none
  | [], _ => rfl
  | (a, w) :: rest, h => by
    have ha := h (a, w) (by simp)
    simp [hGet, ha, hGet_none_of_all k rest (fun e he => h e (by simp [he]))]

theorem hGet_mergeHeaders (k : String) :
    ∀ (caller defaults : HeadersMap), HKeysDistinct caller →
    hGet (mergeHeaders defaults caller) k = optOr (hGet caller k) (hGet defaults k)
  | [], defaults, _ => by simp [mergeHeaders, hGet, optOr]
  | (k0, v0) :: rest, defaults, hd => by
    have hrest : HKeysDistinct rest := (List.pairwise_cons.mp hd).2
    have hhead := (List.pairwise_cons.mp hd).1
    have hstep : mergeHeaders defaults ((k0, v0) :: rest)
        = mergeHeaders (hSet defaults k0 v0) rest := rfl
    rw [hstep, hGet_mergeHeaders k rest (hSet defaults k0 v0) hrest]
    by_cases h0 : keyEqCI k0 k = true
    · have hnone : hGet rest k = none := by
        refine hGet_none_of_all k rest (fun e he => ?_)
        have := hhead e he
        rw [keyEqCI_false_iff] at this ⊢
        rw [keyEqCI_true_iff] at h0
        rw [← h0]
        intro hcon; exact this (by rw [hcon])
      simp [hGet, h0, hnone, optOr, hGet_hSet k0 v0 k defaults]
    · rw [Bool.not_eq_true] at h0
      simp [hGet, h0, optOr, hGet_hSet k0 v0 k defaults]

/-- C7: header assembly — at client construction, `Authorization` is set to
the Basic-Auth value only when the caller supplied no `Authorization`
header, and `Accept` is set to `application/json` only when the caller
supplied no `Accept` header, so explicitly supplied headers take precedence
over these defaults; on every request the sent headers start from the
client's default headers, every caller-supplied header overwrites the
default under the same case-insensitive name, and default names the caller
did not supply stay intact. -/
theorem C7_header_assembly (u p : String) (caller defaults reqHeaders : HeadersMap)
    (k : String) :
    (hHas caller "Authorization" = false →
      hGet (assembleDefaultHeaders u p caller) "Authorization"
        = some (basicAuthHeader u p)) ∧
    (hHas caller "Authorization" = true →
      hGet (assembleDefaultHeaders u p caller) "Authorization"
        = hGet caller "Authorization") ∧
    (hHas caller "Accept" = false →
      hGet (assembleDefaultHeaders u p caller) "Accept" = some "application/json") ∧
    (hHas caller "Accept" = true →
      hGet (assembleDefaultHeaders u p caller) "Accept" = hGet caller "Accept") ∧
    (HKeysDistinct reqHeaders →
      hGet (mergeHeaders defaults reqHeaders) k
        = optOr (hGet reqHeaders k) (hGet defaults k)) := by
  have kaa : keyEqCI "Accept" "Authorization" = false := by decide
  have kaa2 : keyEqCI "Authorization" "Accept" = false := by decide
  have kAuth : keyEqCI "Authorization" "Authorization" = true := by decide
  have kAcc : keyEqCI "Accept" "Accept" = true := by decide
  refine ⟨?_, ?_, ?_, ?_, fun hd => hGet_mergeHeaders k reqHeaders defaults hd⟩
  · intro h
    simp [assembleDefaultHeaders, h, apply_ite (fun hs => hGet hs "Authorization"),
      hGet_hSet, kAuth, kaa]
  · intro h
    simp [assembleDefaultHeaders, h, apply_ite (fun hs => hGet hs "Authorization"),
      hGet_hSet, kaa]
  · intro h
    by_cases h1 : hHas caller "Authorization" = true
    · simp [assembleDefaultHeaders, h1, h, hGet_hSet, kAcc]
    · rw [Bool.not_eq_true] at h1
      simp [assembleDefaultHeaders, h1, hHas_hSet, kaa2, h, hGet_hSet, kAcc]
  · intro h
    by_cases h1 : hHas caller "Authorization" = true
    · simp [assembleDefaultHeaders, h1, h]
    · rw [Bool.not_eq_true] at h1
      simp [assembleDefaultHeaders, h1, hHas_hSet, kaa2, h, hGet_hSet]

/-- C7 witness: with no caller headers the Basic-Auth default is injected;
a caller-supplied `Authorization` survives; in the per-request merge a
caller header overwrites the same case-insensitive name and other default
names stay intact. -/
theorem C7_header_assembly_witness :
    hGet (assembleDefaultHeaders "u" "p" []) "Authorization"
      = some (basicAuthHeader "u" "p") ∧
    hGet (assembleDefaultHeaders "u" "p" [("Authorization", "custom")]) "Authorization"
      = some "custom" ∧
    hGet (mergeHeaders [("Accept", "application/json"), ("X-Extra", "1")]
        [("accept", "text/markdown")]) "Accept" = some "text/markdown" ∧
    hGet (mergeHeaders [("Accept", "application/json"), ("X-Extra", "1")]
        [("accept", "text/markdown")]) "X-Extra" = some "1" := by
  refine ⟨?_, ?_, ?_, ?_⟩
  · exact (C7_header_assembly "u" "p" [] [] [] "k").1 rfl
  · exact (C7_header_assembly "u" "p" [("Authorization", "custom")] [] [] "k").2.1
      (by decide)
  · exact (C7_header_assembly "u" "p" [] [("Accept", "application/json"), ("X-Extra", "1")]
      [("accept", "text/markdown")] "Accept").2.2.2.2 (by decide)
  · exact (C7_header_assembly "u" "p" [] [("Accept", "application/json"), ("X-Extra", "1")]
      [("accept", "text/markdown")] "X-Extra").2.2.2.2 (by decide)

/-- C6: body encoding in `request` — a `BodyInit`-like body (string, Blob,
ArrayBuffer, Uint8Array, ReadableStream, FormData or URLSearchParams) is
passed to the transport unmodified and the headers (hence `Content-Type`)
are untouched; any other defined body is sent as its JSON serialization,
with `Content-Type` set to `application/json` exactly when no such header
is present after merging; an undefined body sends no body and leaves the
headers untouched. -/
theorem C6_body_encoding (headers : HeadersMap) (b : BodyValue) (v : JsonValue) :
    (isBodyInitLike b = true → prepareBody headers b = (some (.raw b), headers)) ∧
    (prepareBody headers (.other v)
      = (some (.text (jsonStringify v)),
         if hHas headers "Content-Type" then headers
         else hSet headers "Content-Type" "application/json")) ∧
    (hHas headers "Content-Type" = true →
      (prepareBody headers (.other v)).2 = headers) ∧
    (hHas headers "Content-Type" = false →
      hGet (prepareBody headers (.other v)).2 "Content-Type"
        = some "application/json") ∧
    prepareBody headers .undef = (none, headers) := by
  have hct : keyEqCI "Content-Type" "Content-Type" = true := by decide
  refine ⟨?_, ?_, ?_, ?_, rfl⟩
  · intro h
    cases b <;> simp_all [prepareBody, isBodyInitLike]
  · simp [prepareBody, isBodyInitLike, jsonStringifyBody]
  · intro h
    simp [prepareBody, isBodyInitLike, h]
  · intro h
    simp only [prepareBody, isBodyInitLike, h]
    simp only [Bool.false_eq_true, if_false]
    rw [hGet_hSet]
    simp [hct]

/-- C6 witness: a string body passes through with headers untouched; a JSON
body on empty headers gets `Content-Type: application/json`; a caller
`Content-Type` is preserved; an undefined body sends nothing. -/
theorem C6_body_encoding_witness :
    prepareBody [("Accept", "application/json")] (.str "raw")
      = (some (.raw (.str "raw")), [("Accept", "application/json")]) ∧
    hGet (prepareBody [] (.other (.obj [("name", .str "x")]))).2 "Content-Type"
      = some "application/json" ∧
    (prepareBody [("Content-Type", "text/plain")] (.other .null)).2
      = [("Content-Type", "text/plain")] ∧
    prepareBody [] .undef = (none, []) := by
  refine ⟨?_, ?_, ?_, ?_⟩
  · exact (C6_body_encoding [("Accept", "application/json")] (.str "raw") .null).1 rfl
  · exact (C6_body_encoding [] (.str "") (.obj [("name", .str "x")])).2.2.2.1 rfl
  · exact (C6_body_encoding [("Content-Type", "text/plain")] (.str "") .null).2.2.1
      (by decide)
  · exact (C6_body_encoding [] (.str "") .null).2.2.2.2

/-- C2: `request` returns the decoded payload as success exactly when the
HTTP status is in [200,300); a 204 status yields the null payload and,
being in [200,300), never raises the error; a status outside [200,300)
throws an `InkdropError` whose `status`, `statusText` and `body` fields
carry the response's numeric status, status text and decoded body, and
whose message embeds the numeric status and status text. -/
theorem C2_request_classification (r : TransportResponse) :
    ((∃ payload, classifyResponse r = .success payload)
        ↔ (200 ≤ r.status ∧ r.status < 300)) ∧
    (r.status = 204 → classifyResponse r = .success .null) ∧
    (200 ≤ r.status ∧ r.status < 300 →
      classifyResponse r = .success (decodePayload r)) ∧
    (¬(200 ≤ r.status ∧ r.status < 300) →
      classifyResponse r = .apiError
        ⟨"Inkdrop API error: " ++ toString r.status ++ " " ++ r.statusText,
         r.status, r.statusText, decodePayload r⟩) := by
  by_cases h : 200 ≤ r.status ∧ r.status < 300
  · have hok : responseOk r = true := by
      simp only [responseOk, Bool.and_eq_true, decide_eq_true_eq]
      omega
    refine ⟨?_, ?_, ?_, ?_⟩
    · simp [classifyResponse, hok, h]
    · intro h204
      have hnull : decodePayload r = .null := by simp [decodePayload, h204]
      simp [classifyResponse, hok, hnull]
    · intro _
      simp [classifyResponse, hok]
    · intro hc
      exact absurd h hc
  · have hok : responseOk r = false := by
      simp only [responseOk, Bool.and_eq_false_iff, decide_eq_false_iff_not]
      omega
    refine ⟨?_, ?_, ?_, ?_⟩
    · simp [classifyResponse, hok, h]
    · intro h204
      exact absurd ⟨by omega, by omega⟩ h
    · intro hc
      exact absurd hc h
    · intro _
      simp [classifyResponse, hok]

/-- C2 witness: a 404 JSON response raises the error with message
"Inkdrop API error: 404 Not Found" carrying status, status text and body;
a 204 response succeeds with the null payload. -/
theorem C2_request_classification_witness :
    classifyResponse ⟨404, "Not Found", some "application/json",
        .obj [("error", .str "not_found")], ""⟩
      = .apiError ⟨"Inkdrop API error: 404 Not Found", 404, "Not Found",
          .obj [("error", .str "not_found")]⟩ ∧
    classifyResponse ⟨204, "No Content", none, .null, ""⟩ = .success .null := by
  constructor
  · exact (C2_request_classification _).2.2.2 (by decide)
  · exact (C2_request_classification _).2.1 rfl

theorem classifyResponse_success (r : TransportResponse)
    (h : 200 ≤ r.status ∧ r.status < 300) :
    classifyResponse r = .success (decodePayload r) := by
  have hok : responseOk r = true := by
    simp only [responseOk, Bool.and_eq_true, decide_eq_true_eq]
    omega
  simp [classifyResponse, hok]

/-- C8: for every 2xx transport response whose decoded payload fails the
operation's expected predicate, the facade fails with the validation error
(unknownutil's `AssertError`) — a kind distinct from the transport-level
`InkdropError`, which these calls never produce on a 2xx — and never
resolves with a payload; a payload satisfying the predicate is returned
unchanged (`NotesAPI.list` with `is.ArrayOf(isNoteDoc)`, `DocsAPI.get`
with `isAnyDoc`). -/
theorem C8_validation_error (r : TransportResponse)
    (h : 200 ≤ r.status ∧ r.status < 300) :
    (arrayOfV isNoteDoc (decodePayload r) = false →
      notesList r = .validationError) ∧
    (arrayOfV isNoteDoc (decodePayload r) = true →
      notesList r = .ok (decodePayload r)) ∧
    (isAnyDoc (decodePayload r) = false → docsGet r = .validationError) ∧
    (isAnyDoc (decodePayload r) = true → docsGet r = .ok (decodePayload r)) ∧
    (isMutationResponse (decodePayload r) = false →
      notesUpsert r = .validationError) ∧
    (isMutationResponse (decodePayload r) = true →
      notesUpsert r = .ok (decodePayload r)) ∧
    (∀ e, notesList r ≠ .apiError e) ∧
    (∀ e, docsGet r ≠ .apiError e) := by
  have hs := classifyResponse_success r h
  refine ⟨?_, ?_, ?_, ?_, ?_, ?_, ?_, ?_⟩
  · intro hfail
    simp [notesList, hs, ensureOutcome, hfail]
  · intro hpass
    simp [notesList, hs, ensureOutcome, hpass]
  · intro hfail
    simp [docsGet, hs, ensureOutcome, hfail]
  · intro hpass
    simp [docsGet, hs, ensureOutcome, hpass]
  · intro hfail
    simp [notesUpsert, hs, ensureOutcome, hfail]
  · intro hpass
    simp [notesUpsert, hs, ensureOutcome, hpass]
  · intro e
    cases hpred : arrayOfV isNoteDoc (decodePayload r) <;>
      simp [notesList, hs, ensureOutcome, hpred]
  · intro e
    cases hpred : isAnyDoc (decodePayload r) <;>
      simp [docsGet, hs, ensureOutcome, hpred]

/-- C8 witness: a 200 list response whose only element is a note missing
`status` makes `NotesAPI.list` fail with the validation error, while the
same element with `status` present is returned unchanged. -/
theorem C8_validation_error_witness :
    notesList ⟨200, "OK", some "application/json",
        .arr [.obj [("_id", .str "note:1"), ("_rev", .str "1-a"),
          ("doctype", .str "markdown"), ("bookId", .str "book:1")]], ""⟩
      = .validationError ∧
    notesList ⟨200, "OK", some "application/json",
        .arr [.obj [("_id", .str "note:1"), ("_rev", .str "1-a"),
          ("doctype", .str "markdown"), ("bookId", .str "book:1"),
          ("status", .str "active")]], ""⟩
      = .ok (.arr [.obj [("_id", .str "note:1"), ("_rev", .str "1-a"),
          ("doctype", .str "markdown"), ("bookId", .str "book:1"),
          ("status", .str "active")]]) := by
  constructor
  · exact (C8_validation_error _ (by decide)).1 (by decide)
  · exact (C8_validation_error _ (by decide)).2.1 (by decide)

/-- C10: `isMutationResponse` requires `ok` only to be a boolean, not to be
`true`: a 2xx response decoding to `{ok: false, id, rev}` satisfies the
predicate and makes the mutation operations (`NotesAPI.upsert`,
`DocsAPI.delete`) resolve successfully with that object unchanged — no
operation inspects the truth value of `ok`. -/
theorem C10_ok_false_accepted (i rv : String) (r : TransportResponse)
    (h : 200 ≤ r.status ∧ r.status < 300)
    (hp : decodePayload r
      = .obj [("ok", .bool false), ("id", .str i), ("rev", .str rv)]) :
    isMutationResponse
      (.obj [("ok", .bool false), ("id", .str i), ("rev", .str rv)]) = true ∧
    notesUpsert r
      = .ok (.obj [("ok", .bool false), ("id", .str i), ("rev", .str rv)]) ∧
    docsDelete r
      = .ok (.obj [("ok", .bool false), ("id", .str i), ("rev", .str rv)]) := by
  have hmut : isMutationResponse
      (.obj [("ok", .bool false), ("id", .str i), ("rev", .str rv)]) = true := rfl
  have hs := classifyResponse_success r h
  refine ⟨hmut, ?_, ?_⟩
  · rw [notesUpsert, hs, hp]
    simp [ensureOutcome, hmut]
  · rw [docsDelete, hs, hp]
    simp [ensureOutcome, hmut]

/-- C10 witness: a 200 response with body `{ok: false, id, rev}` resolves
`NotesAPI.upsert` and `DocsAPI.delete` with that object. -/
theorem C10_ok_false_accepted_witness :
    notesUpsert ⟨200, "OK", some "application/json",
        .obj [("ok", .bool false), ("id", .str "note:1"), ("rev", .str "2-b")], ""⟩
      = .ok (.obj [("ok", .bool false), ("id", .str "note:1"),
          ("rev", .str "2-b")]) ∧
    docsDelete ⟨200, "OK", some "application/json",
        .obj [("ok", .bool false), ("id", .str "note:1"), ("rev", .str "2-b")], ""⟩
      = .ok (.obj [("ok", .bool false), ("id", .str "note:1"),
          ("rev", .str "2-b")]) := by
  constructor
  · exact (C10_ok_false_accepted "note:1" "2-b"
      ⟨200, "OK", some "application/json",
        .obj [("ok", .bool false), ("id", .str "note:1"), ("rev", .str "2-b")], ""⟩
      (by decide) rfl).2.1
  · exact (C10_ok_false_accepted "note:1" "2-b"
      ⟨200, "OK", some "application/json",
        .obj [("ok", .bool false), ("id", .str "note:1"), ("rev", .str "2-b")], ""⟩
      (by decide) rfl).2.2

theorem hRead_append (h : HeadersHeap) (v : HeadersMap) (i : Nat)
    (hi : i < h.objs.length) :
    hRead ⟨h.objs ++ [v]⟩ i = hRead h i := by
  simp [hRead, List.getD, List.getElem?_append, hi]

theorem hRead_hWrite_ne (h : HeadersHeap) (i j : Nat) (v : HeadersMap)
    (hij : i ≠ j) :
    hRead (hWrite h i v) j = hRead h j := by
  simp [hRead, hWrite, List.getD, List.getElem?_set_ne hij]

theorem hRead_hWrite_self (h : HeadersHeap) (i : Nat) (v : HeadersMap)
    (hi : i < h.objs.length) :
    hRead (hWrite h i v) i = v := by
  simp [hRead, hWrite, List.getD, List.getElem?_set_eq_of_lt v hi]

theorem hRead_fresh (h : HeadersHeap) (v : HeadersMap) :
    hRead ⟨h.objs ++ [v]⟩ h.objs.length = v := by
  simp [hRead, List.getD]

theorem requestPrepare_read (h : HeadersHeap) (c : ClientState)
    (ch : Option (List (String × String))) (body : BodyValue)
    (hvalid : c.defaultHeadersRef < h.objs.length) :
    hRead (requestPrepare h c ch body).1 c.defaultHeadersRef
      = hRead h c.defaultHeadersRef := by
  have hne : h.objs.length ≠ c.defaultHeadersRef := by omega
  cases ch with
  | none =>
    simp only [requestPrepare, hAlloc]
    rw [hRead_hWrite_ne _ _ _ _ hne, hRead_append _ _ _ hvalid]
  | some init =>
    simp only [requestPrepare, hAlloc]
    rw [hRead_hWrite_ne _ _ _ _ hne, hRead_hWrite_ne _ _ _ _ hne,
      hRead_append _ _ _ hvalid]

theorem requestPrepare_sent (h : HeadersHeap) (c : ClientState)
    (ch : Option (List (String × String))) (body : BodyValue) :
    (requestPrepare h c ch body).2
      = ((prepareBody (overlayHeaders (hRead h c.defaultHeadersRef) ch) body).2,
         (prepareBody (overlayHeaders (hRead h c.defaultHeadersRef) ch) body).1) := by
  cases ch with
  | none =>
    simp only [requestPrepare, hAlloc]
    rw [hRead_fresh]
    rw [hRead_hWrite_self _ _ _ (by simp)]
    rfl
  | some init =>
    simp only [requestPrepare, hAlloc]
    rw [hRead_fresh]
    rw [hRead_hWrite_self _ _ _ (by simp [hWrite])]
    rw [hRead_hWrite_self _ _ _ (by simp)]
    rfl

theorem requestPrepare_heap_len (h : HeadersHeap) (c : ClientState)
    (ch : Option (List (String × String))) (body : BodyValue) :
    (requestPrepare h c ch body).1.objs.length = h.objs.length + 1 := by
  cases ch <;> simp [requestPrepare, hAlloc, hWrite]

/-- C9: `request` leaves the client configuration unchanged — the
`defaultHeaders` object it copies is identical before and after the call
(the caller-header overlay and the JSON `Content-Type` injection write
only to the per-call copy), and the `readonly` scalar fields
(`baseUrl`/`username`/`password`/`fetcher`) are never written by the model
at all; consequently two identical successive calls send identical headers
and identical bodies. -/
theorem C9_request_frame (h : HeadersHeap) (c : ClientState)
    (ch : Option (List (String × String))) (body : BodyValue)
    (hvalid : c.defaultHeadersRef < h.objs.length) :
    hRead (requestPrepare h c ch body).1 c.defaultHeadersRef
      = hRead h c.defaultHeadersRef ∧
    (requestPrepare (requestPrepare h c ch body).1 c ch body).2.1
      = (requestPrepare h c ch body).2.1 ∧
    (requestPrepare (requestPrepare h c ch body).1 c ch body).2.2
      = (requestPrepare h c ch body).2.2 := by
  have hframe := requestPrepare_read h c ch body hvalid
  refine ⟨hframe, ?_, ?_⟩
  · have h1 := requestPrepare_sent h c ch body
    have h2 := requestPrepare_sent (requestPrepare h c ch body).1 c ch body
    rw [hframe] at h2
    rw [show (requestPrepare (requestPrepare h c ch body).1 c ch body).2.1
        = ((requestPrepare (requestPrepare h c ch body).1 c ch body).2).1 from rfl,
      h2, show (requestPrepare h c ch body).2.1
        = ((requestPrepare h c ch body).2).1 from rfl, h1]
  · have h1 := requestPrepare_sent h c ch body
    have h2 := requestPrepare_sent (requestPrepare h c ch body).1 c ch body
    rw [hframe] at h2
    rw [show (requestPrepare (requestPrepare h c ch body).1 c ch body).2.2
        = ((requestPrepare (requestPrepare h c ch body).1 c ch body).2).2 from rfl,
      h2, show (requestPrepare h c ch body).2.2
        = ((requestPrepare h c ch body).2).2 from rfl, h1]

/-- C9 witness: a concrete client whose default headers hold the Basic-Auth
and Accept defaults; a JSON-body request mutates only the per-call copy
(the stored defaults still lack `Content-Type` afterwards) and a repeated
call sends the same headers. -/
theorem C9_request_frame_witness :
    hRead (requestPrepare ⟨[[("Accept", "application/json")]]⟩
        ⟨"http://127.0.0.1:19840", "u", "p", 0⟩ none (.other .null)).1 0
      = [("Accept", "application/json")] ∧
    (requestPrepare (requestPrepare ⟨[[("Accept", "application/json")]]⟩
        ⟨"http://127.0.0.1:19840", "u", "p", 0⟩ none (.other .null)).1
        ⟨"http://127.0.0.1:19840", "u", "p", 0⟩ none (.other .null)).2.1
      = (requestPrepare ⟨[[("Accept", "application/json")]]⟩
        ⟨"http://127.0.0.1:19840", "u", "p", 0⟩ none (.other .null)).2.1 := by
  constructor
  · exact (C9_request_frame ⟨[[("Accept", "application/json")]]⟩
      ⟨"http://127.0.0.1:19840", "u", "p", 0⟩ none (.other .null) (by decide)).1
  · exact (C9_request_frame ⟨[[("Accept", "application/json")]]⟩
      ⟨"http://127.0.0.1:19840", "u", "p", 0⟩ none (.other .null) (by decide)).2.1

end Inkdrop
